import Mathlib

/-!
# ParcelStore: a verification development for `parcel.go`

`parcel.go` is a data-access object over one SQL table, `parcel`.  Every method
issues exactly one parameterised statement through `database/sql` and maps the
outcome to a Go result.  The development has three layers.

* **Error values.**  `GoError` keeps what `errors.Is` can observe: whether a value
  was produced by the engine or built by `fmt.Errorf`, and, for the latter,
  whether the format used `%w` (the operand stays reachable through `Unwrap`) or
  not (only the text survives).
* **The engine.**  `DB` is the content of the `parcel` table; the six statements
  of `parcel.go` are given their SQL meaning on it.  The engine may refuse any
  statement; what it reports is an explicit argument of each call
  (`none`: the statement runs, `some e`: it fails with `e` and changes nothing).
* **The store.**  `Add`, `Get`, `GetByClient`, `SetStatus`, `SetAddress` and
  `Delete` follow the Go methods line by line on top of the engine calls.

Go's `int` and the engine's 64-bit identifiers are modelled as `Int`; on the
64-bit platforms the program targets `int(id)` in `Add` is the identity.
-/

namespace ParcelStore

/-! ## Data model -/

/-- Modelled from the spec: the `Parcel` struct is declared outside `parcel.go`.
Its five fields are the ones `Get` scans into (`Number`, `Client`, `Status`,
`Address`, `CreatedAt`), typed as in section 3 of the specification. -/
structure Parcel where
  Number : Int
  Client : Int
  Status : String
  Address : String
  CreatedAt : String
deriving DecidableEq

/-- Modelled from the spec: the constant `ParcelStatusRegistered` is declared
outside `parcel.go`; the specification gives the distinguished status as
`"registered"`. -/
def ParcelStatusRegistered : String := "registered"

/-! ## Go error values -/

/-- An error value handed out by `database/sql` or by the driver. -/
structure EngineErr where
  text : String
deriving DecidableEq

/-- The sentinel `sql.ErrNoRows`. -/
def ErrNoRows : EngineErr := ⟨"sql: no rows in result set"⟩

/-- A Go `error` as this package sees it: an engine value, or a value built by
`fmt.Errorf` either without `%w` (`plain`) or with `%w` (`wrap`). -/
inductive GoError where
  | engine (e : EngineErr)
  | plain (msg : String)
  | wrap (msg : String) (inner : GoError)
deriving DecidableEq

/-- The method `Error()`. -/
def GoError.Error : GoError → String
  | .engine e => e.text
  | .plain msg => msg
  | .wrap msg _ => msg

/-- The method `Unwrap()`: only values built with `%w` have an operand. -/
def GoError.Unwrap : GoError → Option GoError
  | .engine _ => none
  | .plain _ => none
  | .wrap _ inner => some inner

/-- The call `errors.Is(err, target)` for an engine value `target`: walk the
`Unwrap` chain of `err` looking for `target` itself.  A value freshly built by
`fmt.Errorf` is never identical to a value that existed before. -/
def errorsIs : GoError → EngineErr → Bool
  | .engine e, target => decide (e = target)
  | .plain _, _ => false
  | .wrap _ inner, target => errorsIs inner target

/-- The call `fmt.Errorf(text + "%w", err)`. -/
def ErrorfW (text : String) (err : EngineErr) : GoError :=
  .wrap (text ++ err.text) (.engine err)

/-- The call `fmt.Errorf(text + "%v", err)`. -/
def ErrorfV (text : String) (err : EngineErr) : GoError :=
  .plain (text ++ err.text)

/-! ## The engine: the `parcel` table and the six statements -/

/-- Modelled from the spec: the schema is created outside `parcel.go`.  The table
has the five columns of `Parcel`; `number` is an auto-incrementing primary key,
and `seq` is the largest identifier the engine has handed out so far. -/
structure DB where
  rows : List Parcel
  seq : Int
deriving DecidableEq

/-- The primary-key constraint on `number`: no two rows share an identifier. -/
def DB.WF (db : DB) : Prop := (db.rows.map Parcel.Number).Nodup

instance (db : DB) : Decidable db.WF := by
  unfold DB.WF; infer_instance

/-- The largest identifier in use or ever handed out. -/
def DB.maxNumber (db : DB) : Int :=
  db.rows.foldl (fun m r => max m r.Number) db.seq

/-- Meaning of
`INSERT INTO parcel (client, status, address, created_at) VALUES (...)`:
the engine appends a row under the next identifier and reports that identifier. -/
def DB.insert (db : DB) (client : Int) (status address createdAt : String) : DB × Int :=
  let id := db.maxNumber + 1
  ({ rows := db.rows ++ [⟨id, client, status, address, createdAt⟩], seq := id }, id)

/-- Meaning of `SELECT number, client, status, address, created_at FROM parcel
WHERE number = :number`. -/
def DB.selectByNumber (db : DB) (number : Int) : List Parcel :=
  db.rows.filter (fun r => decide (r.Number = number))

/-- Meaning of `SELECT number, client, status, address, created_at FROM parcel
WHERE client = :client`. -/
def DB.selectByClient (db : DB) (client : Int) : List Parcel :=
  db.rows.filter (fun r => decide (r.Client = client))

/-- Meaning of `UPDATE parcel SET status = :status WHERE number = :number`. -/
def DB.updateStatus (db : DB) (status : String) (number : Int) : DB :=
  { db with rows := db.rows.map (fun r =>
      if r.Number = number then { r with Status := status } else r) }

/-- Meaning of `UPDATE parcel SET address = :address WHERE number = :number AND
status = :status`. -/
def DB.updateAddress (db : DB) (address : String) (number : Int) (status : String) : DB :=
  { db with rows := db.rows.map (fun r =>
      if r.Number = number ∧ r.Status = status then { r with Address := address } else r) }

/-- Meaning of `DELETE FROM parcel WHERE number = :number AND status = :status`. -/
def DB.delete (db : DB) (number : Int) (status : String) : DB :=
  { db with rows := db.rows.filter (fun r =>
      !(decide (r.Number = number) && decide (r.Status = status))) }

/-! ## The `database/sql` calls made by `parcel.go` -/

/-- The `sql.Result` of an `Exec`, reduced to the one method `Add` calls. -/
structure Result where
  LastInsertId : Except EngineErr Int

/-- `s.db.Exec("INSERT ...")`: on `fault = some e` the statement fails and the table
is untouched; otherwise the row is written, and `idFault` is what `LastInsertId`
will report. -/
def ExecInsert (db : DB) (fault idFault : Option EngineErr)
    (client : Int) (status address createdAt : String) : DB × Except EngineErr Result :=
  match fault with
  | some e => (db, .error e)
  | none =>
    let out := db.insert client status address createdAt
    match idFault with
    | some e => (out.1, .ok ⟨.error e⟩)
    | none => (out.1, .ok ⟨.ok out.2⟩)

/-- `s.db.QueryRow("SELECT ... WHERE number = :number").Scan(...)`: the first row of
the result, `sql.ErrNoRows` when the result is empty, `e` when the engine fails. -/
def QueryRowScan (db : DB) (fault : Option EngineErr) (number : Int) :
    Except EngineErr Parcel :=
  match fault with
  | some e => .error e
  | none =>
    match db.selectByNumber number with
    | [] => .error ErrNoRows
    | r :: _ => .ok r

/-- What can go wrong in a multi-row query: `query` fails the call to `Query`;
`scan = some (i, e)` makes `Scan` fail with `e` on the row of index `i`;
`iter = some (k, e)` stops the cursor after `k` rows with `rows.Err() = e`. -/
structure QueryFaults where
  query : Option EngineErr
  scan : Option (Nat × EngineErr)
  iter : Option (Nat × EngineErr)

/-- The engine answers every call of a multi-row query. -/
def QueryFaults.none : QueryFaults := ⟨Option.none, Option.none, Option.none⟩

/-- The cursor `*sql.Rows`: the outcome of `Scan` for each row `Next` delivers,
and the value of `rows.Err()` once `Next` has returned false. -/
structure Rows where
  scans : List (Except EngineErr Parcel)
  Err : Option EngineErr

/-- Outcome of `Scan` on each delivered row under a scan fault. -/
def scanOutcomes : Option (Nat × EngineErr) → List Parcel → List (Except EngineErr Parcel)
  | _, [] => []
  | Option.none, r :: rs => .ok r :: scanOutcomes Option.none rs
  | some (0, e), _ :: rs => .error e :: scanOutcomes Option.none rs
  | some (k + 1, e), r :: rs => .ok r :: scanOutcomes (some (k, e)) rs

/-- `s.db.Query("SELECT ... WHERE client = :client")`. -/
def Query (db : DB) (f : QueryFaults) (client : Int) : Except EngineErr Rows :=
  match f.query with
  | some e => .error e
  | Option.none =>
    let matched := db.selectByClient client
    match f.iter with
    | some (k, e) => .ok ⟨scanOutcomes f.scan (matched.take k), some e⟩
    | Option.none => .ok ⟨scanOutcomes f.scan matched, Option.none⟩

/-- `s.db.Exec("UPDATE parcel SET status = ...")`; the `sql.Result` is discarded by
the caller, so only the error is kept. -/
def ExecUpdateStatus (db : DB) (fault : Option EngineErr) (status : String) (number : Int) :
    DB × Option EngineErr :=
  match fault with
  | some e => (db, some e)
  | none => (db.updateStatus status number, none)

/-- `s.db.Exec("UPDATE parcel SET address = ...")`. -/
def ExecUpdateAddress (db : DB) (fault : Option EngineErr)
    (address : String) (number : Int) (status : String) : DB × Option EngineErr :=
  match fault with
  | some e => (db, some e)
  | none => (db.updateAddress address number status, none)

/-- `s.db.Exec("DELETE FROM parcel ...")`. -/
def ExecDelete (db : DB) (fault : Option EngineErr) (number : Int) (status : String) :
    DB × Option EngineErr :=
  match fault with
  | some e => (db, some e)
  | none => (db.delete number status, none)

/-! ## The store: the six methods of `ParcelStore` -/

/-- `func (s ParcelStore) Add(p Parcel) (int, error)`. -/
def Add (db : DB) (fault idFault : Option EngineErr) (p : Parcel) : DB × Except GoError Int :=
  match ExecInsert db fault idFault p.Client p.Status p.Address p.CreatedAt with
  | (db1, .error err) => (db1, .error (ErrorfW "не удалось добавить посылку: " err))
  | (db1, .ok res) =>
    match res.LastInsertId with
    | .error err => (db1, .error (ErrorfW "не удалось извлечь id добавленной записи: " err))
    | .ok id => (db1, .ok id)

/-- `func (s ParcelStore) Get(number int) (Parcel, error)`.  On failure Go returns
the zero `Parcel` next to the error; the error is built from `number` alone. -/
def Get (db : DB) (fault : Option EngineErr) (number : Int) : Except GoError Parcel :=
  match QueryRowScan db fault number with
  | .error _ => .error (.plain ("строка " ++ toString number ++ " не найдена"))
  | .ok p => .ok p

/-- The loop `for rows.Next() { ... rows.Scan ... parcels = append(parcels, p) }`. -/
def scanLoop (parcels : List Parcel) :
    List (Except EngineErr Parcel) → Except GoError (List Parcel)
  | [] => .ok parcels
  | .error err :: _ => .error (ErrorfV "ошибка сканирования данных: " err)
  | .ok p :: rest => scanLoop (parcels ++ [p]) rest

/-- `func (s ParcelStore) GetByClient(client int) ([]Parcel, error)`. -/
def GetByClient (db : DB) (f : QueryFaults) (client : Int) : Except GoError (List Parcel) :=
  match Query db f client with
  | .error err => .error (ErrorfV "ошибка выполнения запроса: " err)
  | .ok rows =>
    match scanLoop [] rows.scans with
    | .error e => .error e
    | .ok parcels =>
      match rows.Err with
      | some err => .error (ErrorfV "ошибка чтения строк: " err)
      | Option.none => .ok parcels

/-- `func (s ParcelStore) SetStatus(number int, status string) error`. -/
def SetStatus (db : DB) (fault : Option EngineErr) (number : Int) (status : String) :
    DB × Option GoError :=
  match ExecUpdateStatus db fault status number with
  | (db1, some err) => (db1, some (ErrorfV "ошибка выполнения запроса: " err))
  | (db1, none) => (db1, none)

/-- `func (s ParcelStore) SetAddress(number int, address string) error`. -/
def SetAddress (db : DB) (fault : Option EngineErr) (number : Int) (address : String) :
    DB × Option GoError :=
  match ExecUpdateAddress db fault address number ParcelStatusRegistered with
  | (db1, some err) => (db1, some (ErrorfV "ошибка выполнения запроса: " err))
  | (db1, none) => (db1, none)

/-- `func (s ParcelStore) Delete(number int) error`. -/
def Delete (db : DB) (fault : Option EngineErr) (number : Int) : DB × Option GoError :=
  match ExecDelete db fault number ParcelStatusRegistered with
  | (db1, some err) => (db1, some (ErrorfW "ошибка выполнения запроса на удаление: " err))
  | (db1, none) => (db1, none)

/-! ## Observations on returned errors -/

/-- The `error` component of a `(value, error)` result: `none` stands for `nil`. -/
def errOf {α : Type} : Except GoError α → Option GoError
  | .error e => some e
  | .ok _ => none

/-- A returned error is non-nil and `errors.Is(err, e)` holds for it. -/
def wraps (ret : Option GoError) (e : EngineErr) : Bool :=
  match ret with
  | some err => errorsIs err e
  | none => false

/-! ## Sample data -/

/-- A table with one registered and one sent parcel of client 7. -/
def sampleDB : DB :=
  ⟨[⟨1, 7, "registered", "a", "t0"⟩, ⟨2, 7, "sent", "b", "t1"⟩], 2⟩

/-- The parcel of the example scenario, before it has a number. -/
def sampleParcel : Parcel :=
  ⟨0, 1000, "registered", "test", "2024-01-01T00:00:00Z"⟩

/-- An engine failure. -/
def sampleErr : EngineErr := ⟨"database is locked"⟩

/-! ## Auxiliary facts about the engine -/

theorem foldl_max_ge_init (l : List Parcel) (s : Int) :
    s ≤ l.foldl (fun m r => max m r.Number) s := by
  induction l generalizing s with
  | nil => simp
  | cons a t ih =>
    simp only [List.foldl_cons]
    exact le_trans (le_max_left _ _) (ih _)

theorem foldl_max_ge_mem (l : List Parcel) (s : Int) (r : Parcel) (hr : r ∈ l) :
    r.Number ≤ l.foldl (fun m r => max m r.Number) s := by
  induction l generalizing s with
  | nil => cases hr
  | cons a t ih =>
    simp only [List.foldl_cons]
    rcases List.mem_cons.mp hr with h | h
    · subst h
      exact le_trans (le_max_right _ _) (foldl_max_ge_init t _)
    · exact ih _ h

theorem number_le_maxNumber (db : DB) (r : Parcel) (hr : r ∈ db.rows) :
    r.Number ≤ db.maxNumber :=
  foldl_max_ge_mem db.rows db.seq r hr

/-- The identifier the engine hands out next is carried by no stored row. -/
theorem selectByNumber_fresh (db : DB) :
    db.selectByNumber (db.maxNumber + 1) = [] := by
  unfold DB.selectByNumber
  rw [List.filter_eq_nil_iff]
  intro r hr
  have := number_le_maxNumber db r hr
  simp only [decide_eq_true_eq]
  omega

theorem Get_congr (db1 db2 : DB) (gf : Option EngineErr) (m : Int)
    (h : db1.selectByNumber m = db2.selectByNumber m) : Get db1 gf m = Get db2 gf m := by
  simp only [Get, QueryRowScan, h]

theorem Get_of_select_nil (db : DB) (gf : Option EngineErr) (n : Int)
    (h : db.selectByNumber n = []) :
    Get db gf n = .error (.plain ("строка " ++ toString n ++ " не найдена")) := by
  cases gf <;> simp [Get, QueryRowScan, h]

theorem Get_ok_iff (db : DB) (n : Int) (r : Parcel) :
    Get db none n = .ok r ↔ (db.selectByNumber n).head? = some r := by
  unfold Get QueryRowScan
  cases h : db.selectByNumber n with
  | nil => simp
  | cons a t => simp

theorem rows_unique (db : DB) (hwf : db.WF) (x y : Parcel) (hx : x ∈ db.rows)
    (hy : y ∈ db.rows) (h : x.Number = y.Number) : x = y :=
  List.inj_on_of_nodup_map hwf hx hy h

theorem filter_number_of_nodup (l : List Parcel) (h : (l.map Parcel.Number).Nodup)
    (r : Parcel) (hr : r ∈ l) :
    l.filter (fun x => decide (x.Number = r.Number)) = [r] := by
  induction l with
  | nil => cases hr
  | cons a t ih =>
    rw [List.map_cons, List.nodup_cons] at h
    obtain ⟨hnot, hnd⟩ := h
    rcases List.mem_cons.mp hr with e | hmem
    · subst e
      have ht : t.filter (fun x => decide (x.Number = r.Number)) = [] := by
        rw [List.filter_eq_nil_iff]
        intro x hx hxe
        exact hnot (List.mem_map.mpr ⟨x, hx, by simpa using hxe⟩)
      simp [List.filter_cons, ht]
    · have hne : a.Number ≠ r.Number := by
        intro e
        exact hnot (List.mem_map.mpr ⟨r, hmem, e.symm⟩)
      simp [List.filter_cons, hne, ih hnd hmem]

theorem selectByNumber_of_mem (db : DB) (hwf : db.WF) (r : Parcel) (hr : r ∈ db.rows) :
    db.selectByNumber r.Number = [r] :=
  filter_number_of_nodup db.rows hwf r hr

theorem Get_of_mem (db : DB) (hwf : db.WF) (r : Parcel) (hr : r ∈ db.rows) :
    Get db none r.Number = .ok r := by
  simp [Get, QueryRowScan, selectByNumber_of_mem db hwf r hr]

theorem select_updateStatus (db : DB) (s : String) (n m : Int) :
    (db.updateStatus s n).selectByNumber m =
      (db.selectByNumber m).map (fun r =>
        if r.Number = n then { r with Status := s } else r) := by
  simp only [DB.selectByNumber, DB.updateStatus, List.filter_map]
  congr 1
  apply List.filter_congr
  intro x _
  simp only [Function.comp]
  split <;> rfl

theorem select_updateAddress (db : DB) (a : String) (n m : Int) (st : String) :
    (db.updateAddress a n st).selectByNumber m =
      (db.selectByNumber m).map (fun r =>
        if r.Number = n ∧ r.Status = st then { r with Address := a } else r) := by
  simp only [DB.selectByNumber, DB.updateAddress, List.filter_map]
  congr 1
  apply List.filter_congr
  intro x _
  simp only [Function.comp]
  split <;> rfl

theorem select_delete (db : DB) (n m : Int) (st : String) :
    (db.delete n st).selectByNumber m =
      (db.selectByNumber m).filter (fun r =>
        !(decide (r.Number = n) && decide (r.Status = st))) := by
  simp only [DB.selectByNumber, DB.delete, List.filter_filter]
  apply List.filter_congr
  intro x _
  exact Bool.and_comm _ _

theorem mem_selectByNumber (db : DB) (n : Int) (r : Parcel) :
    r ∈ db.selectByNumber n ↔ r ∈ db.rows ∧ r.Number = n := by
  simp [DB.selectByNumber, List.mem_filter]

theorem updateStatus_absent (db : DB) (s : String) (n : Int)
    (h : ∀ r ∈ db.rows, r.Number ≠ n) : db.updateStatus s n = db := by
  cases db with
  | mk rows seq =>
    simp only [DB.updateStatus, DB.mk.injEq, and_true]
    conv_rhs => rw [← List.map_id rows]
    apply List.map_congr_left
    intro r hr
    simp [h r hr]

theorem updateAddress_absent (db : DB) (a : String) (n : Int) (st : String)
    (h : ∀ r ∈ db.rows, r.Number = n → r.Status ≠ st) : db.updateAddress a n st = db := by
  cases db with
  | mk rows seq =>
    simp only [DB.updateAddress, DB.mk.injEq, and_true]
    conv_rhs => rw [← List.map_id rows]
    apply List.map_congr_left
    intro r hr
    have := h r hr
    simp only [id]
    split
    · rename_i hc; exact absurd hc.2 (this hc.1)
    · rfl

theorem delete_absent (db : DB) (n : Int) (st : String)
    (h : ∀ r ∈ db.rows, r.Number = n → r.Status ≠ st) : db.delete n st = db := by
  cases db with
  | mk rows seq =>
    simp only [DB.delete, DB.mk.injEq, and_true]
    rw [List.filter_eq_self]
    intro r hr
    have := h r hr
    simp only [Bool.not_eq_true', Bool.and_eq_false_iff, decide_eq_false_iff_not]
    by_cases hc : r.Number = n
    · exact Or.inr (this hc)
    · exact Or.inl hc

theorem scanLoop_none (acc l : List Parcel) :
    scanLoop acc (scanOutcomes none l) = .ok (acc ++ l) := by
  induction l generalizing acc with
  | nil => simp [scanOutcomes, scanLoop]
  | cons a t ih => simp [scanOutcomes, scanLoop, ih]

theorem scanLoop_ok (sf : Option (Nat × EngineErr)) (acc l ps : List Parcel)
    (h : scanLoop acc (scanOutcomes sf l) = .ok ps) : ps = acc ++ l := by
  induction l generalizing sf acc with
  | nil =>
    cases sf <;> simp [scanOutcomes, scanLoop] at h <;> simp [h]
  | cons a t ih =>
    match sf with
    | none =>
      rw [scanLoop_none] at h
      exact (Except.ok.inj h).symm
    | some (0, e) => simp [scanOutcomes, scanLoop] at h
    | some (k + 1, e) =>
      simp only [scanOutcomes, scanLoop] at h
      have := ih _ _ h
      simpa using this

theorem scanLoop_error_plain (acc : List Parcel) (l : List (Except EngineErr Parcel))
    (err : GoError) (h : scanLoop acc l = .error err) : ∃ msg, err = .plain msg := by
  induction l generalizing acc with
  | nil => simp [scanLoop] at h
  | cons a t ih =>
    cases a with
    | error e =>
      simp only [scanLoop, ErrorfV, Except.error.injEq] at h
      exact ⟨_, h.symm⟩
    | ok p => exact ih _ (by simpa [scanLoop] using h)

theorem GetByClient_none (db : DB) (c : Int) :
    GetByClient db QueryFaults.none c = .ok (db.selectByClient c) := by
  simp [GetByClient, Query, QueryFaults.none, scanLoop_none]

theorem GetByClient_ok (db : DB) (f : QueryFaults) (c : Int) (ps : List Parcel)
    (h : GetByClient db f c = .ok ps) : ps = db.selectByClient c := by
  obtain ⟨q, sf, it⟩ := f
  cases q with
  | some e => simp [GetByClient, Query] at h
  | none =>
    cases it with
    | some ke =>
      obtain ⟨k, e⟩ := ke
      simp only [GetByClient, Query] at h
      split at h <;> simp at h
    | none =>
      simp only [GetByClient, Query] at h
      split at h
      · simp at h
      · rename_i parcels hloop
        simp only [Except.ok.injEq] at h
        subst h
        simpa using scanLoop_ok sf [] _ _ hloop

theorem GetByClient_error_plain (db : DB) (f : QueryFaults) (c : Int) (err : GoError)
    (h : GetByClient db f c = .error err) : ∃ msg, err = .plain msg := by
  unfold GetByClient at h
  split at h
  · simp only [ErrorfV, Except.error.injEq] at h
    exact ⟨_, h.symm⟩
  · rename_i rows _
    split at h
    · rename_i e hloop
      simp only [Except.error.injEq] at h
      subst h
      exact scanLoop_error_plain _ _ _ hloop
    · split at h
      · simp only [ErrorfV, Except.error.injEq] at h
        exact ⟨_, h.symm⟩
      · simp at h

theorem rows_nodup (db : DB) (hwf : db.WF) : db.rows.Nodup :=
  List.Nodup.of_map _ hwf

theorem WF_empty (seq : Int) : (DB.mk [] seq).WF := by
  simp [DB.WF]

theorem WF_insert (db : DB) (hwf : db.WF) (client : Int) (status address createdAt : String) :
    (db.insert client status address createdAt).1.WF := by
  unfold DB.WF at *
  simp only [DB.insert, List.map_append, List.map_cons, List.map_nil]
  rw [List.nodup_append]
  refine ⟨hwf, List.nodup_singleton _, ?_⟩
  intro x hx hx1
  rw [List.mem_singleton] at hx1
  obtain ⟨r, hr, hrx⟩ := List.mem_map.mp hx
  have := number_le_maxNumber db r hr
  omega

theorem WF_updateStatus (db : DB) (hwf : db.WF) (s : String) (n : Int) :
    (db.updateStatus s n).WF := by
  unfold DB.WF at *
  have : (db.updateStatus s n).rows.map Parcel.Number = db.rows.map Parcel.Number := by
    simp only [DB.updateStatus, List.map_map]
    apply List.map_congr_left
    intro r _
    simp only [Function.comp]
    split <;> rfl
  rw [this]; exact hwf

theorem WF_updateAddress (db : DB) (hwf : db.WF) (a : String) (n : Int) (st : String) :
    (db.updateAddress a n st).WF := by
  unfold DB.WF at *
  have : (db.updateAddress a n st).rows.map Parcel.Number = db.rows.map Parcel.Number := by
    simp only [DB.updateAddress, List.map_map]
    apply List.map_congr_left
    intro r _
    simp only [Function.comp]
    split <;> rfl
  rw [this]; exact hwf

theorem WF_delete (db : DB) (hwf : db.WF) (n : Int) (st : String) :
    (db.delete n st).WF := by
  unfold DB.WF at *
  exact List.Nodup.sublist (List.Sublist.map _ (List.filter_sublist _)) hwf

/-- A value built without `%w` gives `errors.Is` nothing to find. -/
theorem wraps_plain (msg : String) (e : EngineErr) : wraps (some (.plain msg)) e = false := rfl

/-- Values built with `%w` keep their operand reachable. -/
theorem wraps_ErrorfW (text : String) (e : EngineErr) : wraps (some (ErrorfW text e)) e = true := by
  simp [wraps, ErrorfW, errorsIs]

/-- `Add` wraps with `%w` both the failure of the insert and the failure to read the
identifier back. -/
theorem Add_wraps (db : DB) (p : Parcel) (e : EngineErr) (idFault : Option EngineErr) :
    wraps (errOf (Add db (some e) idFault p).2) e = true ∧
      wraps (errOf (Add db none (some e) p).2) e = true := by
  constructor <;> simp [Add, ExecInsert, errOf, wraps_ErrorfW]

/-- `Delete` wraps the failure of its statement with `%w`. -/
theorem Delete_wraps (db : DB) (n : Int) (e : EngineErr) :
    wraps (Delete db (some e) n).2 e = true := by
  simp [Delete, ExecDelete, wraps_ErrorfW]

/-- `SetStatus` and `SetAddress` format the failure with `%v`: the error they return
is non-nil and nothing can be recovered from it. -/
theorem SetStatus_SetAddress_plain (db : DB) (n : Int) (s a : String) (e target : EngineErr) :
    (SetStatus db (some e) n s).2 = some (ErrorfV "ошибка выполнения запроса: " e) ∧
      wraps (SetStatus db (some e) n s).2 target = false ∧
      (SetAddress db (some e) n a).2 = some (ErrorfV "ошибка выполнения запроса: " e) ∧
      wraps (SetAddress db (some e) n a).2 target = false :=
  ⟨rfl, rfl, rfl, rfl⟩

/-- Whatever makes `Get` fail, the error it returns is built from the number alone. -/
theorem Get_error_plain (db : DB) (gf : Option EngineErr) (n : Int) (err : GoError)
    (h : Get db gf n = .error err) :
    err = .plain ("строка " ++ toString n ++ " не найдена") := by
  unfold Get at h
  split at h
  · exact (Except.error.inj h).symm
  · simp at h

/-! ## The claims -/

/-- C1. Round trip: whenever `Add(p)` succeeds and returns `id`, a `Get(id)` issued
right after it (answered by the engine) succeeds and returns `p` with `Number`
set to `id`; `Client`, `Status`, `Address` and `CreatedAt` are those of `p`. -/
theorem Add_Get_roundtrip (db db1 : DB) (fault idFault : Option EngineErr) (p : Parcel)
    (id : Int) (h : Add db fault idFault p = (db1, .ok id)) :
    Get db1 none id = .ok { p with Number := id } := by
  cases fault with
  | some e => simp [Add, ExecInsert] at h
  | none =>
    cases idFault with
    | some e => simp [Add, ExecInsert] at h
    | none =>
      simp only [Add, ExecInsert, DB.insert, Prod.mk.injEq, Except.ok.injEq] at h
      obtain ⟨h1, h2⟩ := h
      subst h1 h2
      have hf := selectByNumber_fresh db
      unfold DB.selectByNumber at hf
      simp [Get, QueryRowScan, DB.selectByNumber, List.filter_append, hf]

theorem Add_Get_roundtrip_witness :
    Add sampleDB none none sampleParcel = ((sampleDB.insert 1000 "registered" "test"
        "2024-01-01T00:00:00Z").1, .ok 3) ∧
      Get (sampleDB.insert 1000 "registered" "test" "2024-01-01T00:00:00Z").1 none 3
        = .ok { sampleParcel with Number := 3 } :=
  ⟨rfl, Add_Get_roundtrip sampleDB _ none none sampleParcel 3 rfl⟩

/-- C2. Delete removes a registered parcel: in a table that respects the primary
key and holds a row `r` with number `n` and status `"registered"`, `Delete(n)`
(its statement run by the engine) returns no error, and a following `Get(n)`
returns the not-found error, whatever the engine reports to it. -/
theorem Delete_registered (db : DB) (n : Int) (r : Parcel) (gf : Option EngineErr)
    (hwf : db.WF) (hr : r ∈ db.rows) (hn : r.Number = n)
    (hs : r.Status = ParcelStatusRegistered) :
    (Delete db none n).2 = none ∧
      Get (Delete db none n).1 gf n
        = .error (.plain ("строка " ++ toString n ++ " не найдена")) := by
  refine ⟨rfl, ?_⟩
  apply Get_of_select_nil
  show (db.delete n ParcelStatusRegistered).selectByNumber n = []
  rw [select_delete, List.filter_eq_nil_iff]
  intro x hx
  obtain ⟨hxr, hxn⟩ := (mem_selectByNumber db n x).mp hx
  have hxe : x = r := rows_unique db hwf x r hxr hr (hxn.trans hn.symm)
  subst hxe
  simp [hn, hs]

theorem Delete_registered_witness :
    (Delete sampleDB none 1).2 = none ∧
      Get (Delete sampleDB none 1).1
          none 1
        = .error (.plain ("строка " ++ toString (1 : Int) ++ " не найдена")) :=
  Delete_registered sampleDB 1
    ⟨1, 7, "registered", "a", "t0"⟩ none (by decide) (by decide) rfl rfl

/-- C4. Delete is gated by status: in a table that respects the primary key and
holds a row `r` with number `n` whose status is not `"registered"`, `Delete(n)`
(its statement run by the engine) returns no error and leaves the table as it was,
and `Get(n)` returns `r` after the call as it did before. -/
theorem Delete_not_registered (db : DB) (n : Int) (r : Parcel)
    (hwf : db.WF) (hr : r ∈ db.rows) (hn : r.Number = n)
    (hs : r.Status ≠ ParcelStatusRegistered) :
    Delete db none n = (db, none) ∧ Get db none n = .ok r ∧
      Get (Delete db none n).1 none n = .ok r := by
  have hd : db.delete n ParcelStatusRegistered = db := by
    apply delete_absent
    intro x hx hxn
    have hxe : x = r := rows_unique db hwf x r hx hr (hxn.trans hn.symm)
    subst hxe
    exact hs
  have hg : Get db none n = .ok r := hn ▸ Get_of_mem db hwf r hr
  have hD : Delete db none n = (db, none) := by
    simp [Delete, ExecDelete, hd]
  exact ⟨hD, hg, by rw [hD]; exact hg⟩

theorem Delete_not_registered_witness :
    Delete sampleDB none 2
        = (sampleDB, none) ∧
      Get sampleDB none 2
        = .ok ⟨2, 7, "sent", "b", "t1"⟩ ∧
      Get (Delete sampleDB none 2).1
          none 2
        = .ok ⟨2, 7, "sent", "b", "t1"⟩ :=
  Delete_not_registered sampleDB 2
    ⟨2, 7, "sent", "b", "t1"⟩ (by decide) (by decide) rfl (by decide)

/-- C5. Address update is gated by status: if `Get(n)` returns `r` before the call,
then `SetAddress(n, a)` (its statement run by the engine) returns no error and
afterwards `Get(n)` returns `r` with
`Address` replaced by `a` when the status of `r` was `"registered"`, and `r` itself
when its status was anything else. -/
theorem SetAddress_gated (db : DB) (n : Int) (a : String) (r : Parcel)
    (hget : Get db none n = .ok r) :
    (SetAddress db none n a).2 = none ∧
      Get (SetAddress db none n a).1 none n =
        .ok (if r.Status = ParcelStatusRegistered then { r with Address := a } else r) := by
  refine ⟨rfl, ?_⟩
  rw [Get_ok_iff] at hget
  rw [Get_ok_iff]
  show ((db.updateAddress a n ParcelStatusRegistered).selectByNumber n).head? = _
  rw [select_updateAddress]
  cases hsel : db.selectByNumber n with
  | nil => rw [hsel] at hget; simp at hget
  | cons x t =>
    rw [hsel] at hget
    simp only [List.head?_cons, Option.some.injEq] at hget
    subst hget
    have hxn : x.Number = n :=
      ((mem_selectByNumber db n x).mp (by rw [hsel]; exact List.mem_cons_self _ _)).2
    simp [hxn]

theorem SetAddress_gated_witness :
    ((SetAddress sampleDB none 1 "new").2 = none ∧
      Get (SetAddress sampleDB none 1 "new").1 none 1 = .ok ⟨1, 7, "registered", "new", "t0"⟩) ∧
    ((SetAddress sampleDB none 2 "new").2 = none ∧
      Get (SetAddress sampleDB none 2 "new").1 none 2 = .ok ⟨2, 7, "sent", "b", "t1"⟩) :=
  ⟨SetAddress_gated sampleDB 1 "new" ⟨1, 7, "registered", "a", "t0"⟩ rfl,
   SetAddress_gated sampleDB 2 "new" ⟨2, 7, "sent", "b", "t1"⟩ rfl⟩

/-- C6. Status update is unconditional: if `Get(n)` returns `r` before the call
(whatever the status of `r`), then `SetStatus(n, s)` (its statement run by the
engine) returns no error and afterwards `Get(n)` returns `r` with `Status` replaced by `s`; number, client,
address and creation time are unchanged. -/
theorem SetStatus_unconditional (db : DB) (n : Int) (s : String) (r : Parcel)
    (hget : Get db none n = .ok r) :
    (SetStatus db none n s).2 = none ∧
      Get (SetStatus db none n s).1 none n = .ok { r with Status := s } := by
  refine ⟨rfl, ?_⟩
  rw [Get_ok_iff] at hget
  rw [Get_ok_iff]
  show ((db.updateStatus s n).selectByNumber n).head? = _
  rw [select_updateStatus]
  cases hsel : db.selectByNumber n with
  | nil => rw [hsel] at hget; simp at hget
  | cons x t =>
    rw [hsel] at hget
    simp only [List.head?_cons, Option.some.injEq] at hget
    subst hget
    have hxn : x.Number = n :=
      ((mem_selectByNumber db n x).mp (by rw [hsel]; exact List.mem_cons_self _ _)).2
    simp [hxn]

theorem SetStatus_unconditional_witness :
    (SetStatus sampleDB none 2 "delivered").2 = none ∧
      Get (SetStatus sampleDB none 2 "delivered").1 none 2
        = .ok ⟨2, 7, "delivered", "b", "t1"⟩ :=
  SetStatus_unconditional sampleDB 2 "delivered" ⟨2, 7, "sent", "b", "t1"⟩ rfl

/-- C8. Mutating a missing row is a silent no-op: when no row has number `n`,
`SetStatus(n, s)`, `SetAddress(n, a)` and `Delete(n)` (their statements run by the
engine) each return no error and leave the table exactly as it was. -/
theorem mutate_missing_noop (db : DB) (n : Int) (s a : String)
    (h : ∀ r ∈ db.rows, r.Number ≠ n) :
    SetStatus db none n s = (db, none) ∧ SetAddress db none n a = (db, none) ∧
      Delete db none n = (db, none) := by
  refine ⟨?_, ?_, ?_⟩
  · simp [SetStatus, ExecUpdateStatus, updateStatus_absent db s n h]
  · have : db.updateAddress a n ParcelStatusRegistered = db :=
      updateAddress_absent db a n _ (fun r hr hn => absurd hn (h r hr))
    simp [SetAddress, ExecUpdateAddress, this]
  · have : db.delete n ParcelStatusRegistered = db :=
      delete_absent db n _ (fun r hr hn => absurd hn (h r hr))
    simp [Delete, ExecDelete, this]

theorem mutate_missing_noop_witness :
    SetStatus sampleDB none 5 "sent" = (sampleDB, none) ∧
      SetAddress sampleDB none 5 "new" = (sampleDB, none) ∧
      Delete sampleDB none 5 = (sampleDB, none) :=
  mutate_missing_noop sampleDB 5 "sent" "new" (by decide)

/-- C10. Mutations touch only the addressed row: for `m` different from `n`, and
whatever the engine reports to either call, `Get(m)` returns after `SetStatus(n, s)`,
after `SetAddress(n, a)` and after `Delete(n)` what it returned before. -/
theorem mutate_frame (db : DB) (n m : Int) (s a : String) (f gf : Option EngineErr)
    (hmn : m ≠ n) :
    Get (SetStatus db f n s).1 gf m = Get db gf m ∧
      Get (SetAddress db f n a).1 gf m = Get db gf m ∧
      Get (Delete db f n).1 gf m = Get db gf m := by
  cases f with
  | some e => exact ⟨rfl, rfl, rfl⟩
  | none =>
    refine ⟨?_, ?_, ?_⟩
    · apply Get_congr
      show (db.updateStatus s n).selectByNumber m = _
      rw [select_updateStatus]
      conv_rhs => rw [← List.map_id (db.selectByNumber m)]
      apply List.map_congr_left
      intro x hx
      have hxm := ((mem_selectByNumber db m x).mp hx).2
      have : x.Number ≠ n := by rw [hxm]; exact hmn
      simp [this]
    · apply Get_congr
      show (db.updateAddress a n ParcelStatusRegistered).selectByNumber m = _
      rw [select_updateAddress]
      conv_rhs => rw [← List.map_id (db.selectByNumber m)]
      apply List.map_congr_left
      intro x hx
      have hxm := ((mem_selectByNumber db m x).mp hx).2
      have : x.Number ≠ n := by rw [hxm]; exact hmn
      simp [this]
    · apply Get_congr
      show (db.delete n ParcelStatusRegistered).selectByNumber m = _
      rw [select_delete, List.filter_eq_self]
      intro x hx
      have hxm := ((mem_selectByNumber db m x).mp hx).2
      have : x.Number ≠ n := by rw [hxm]; exact hmn
      simp [this]

theorem mutate_frame_witness :
    (2 : Int) ≠ 1 ∧
      Get (SetStatus sampleDB none 1 "sent").1 none 2 = Get sampleDB none 2 ∧
      Get (SetAddress sampleDB none 1 "new").1 none 2 = Get sampleDB none 2 ∧
      Get (Delete sampleDB none 1).1 none 2 = Get sampleDB none 2 :=
  ⟨by decide, mutate_frame sampleDB 1 2 "sent" "new" none none (by decide)⟩

/-- C7. Client fan-out is exact: on a table that respects the primary key, when the
engine answers the query `GetByClient(c)` returns no error and the list of the
stored rows whose client is `c`: each such row occurs in it exactly once, as the
full stored record; every element of it is a stored row of client `c`; and it is
the empty list when no row has client `c`.  Moreover a call that returns no error
returns that list, whatever the engine reported. -/
theorem GetByClient_exact (db : DB) (c : Int) (hwf : db.WF) :
    GetByClient db QueryFaults.none c = .ok (db.selectByClient c) ∧
      (∀ q ∈ db.rows, q.Client = c → (db.selectByClient c).count q = 1) ∧
      (∀ q ∈ db.selectByClient c, q ∈ db.rows ∧ q.Client = c) ∧
      ((∀ q ∈ db.rows, q.Client ≠ c) → GetByClient db QueryFaults.none c = .ok []) ∧
      (∀ f ps, GetByClient db f c = .ok ps → ps = db.selectByClient c) := by
  have hmem : ∀ q, q ∈ db.selectByClient c ↔ q ∈ db.rows ∧ q.Client = c := by
    intro q
    simp [DB.selectByClient, List.mem_filter]
  refine ⟨GetByClient_none db c, ?_, ?_, ?_, ?_⟩
  · intro q hq hc
    have hnd : (db.selectByClient c).Nodup := (rows_nodup db hwf).filter _
    exact List.count_eq_one_of_mem hnd ((hmem q).mpr ⟨hq, hc⟩)
  · intro q hq
    exact (hmem q).mp hq
  · intro hno
    rw [GetByClient_none]
    congr 1
    unfold DB.selectByClient
    rw [List.filter_eq_nil_iff]
    intro q hq
    simpa using hno q hq
  · intro f ps h
    exact GetByClient_ok db f c ps h

theorem GetByClient_exact_witness :
    GetByClient sampleDB QueryFaults.none 7
        = .ok [⟨1, 7, "registered", "a", "t0"⟩, ⟨2, 7, "sent", "b", "t1"⟩] ∧
      GetByClient sampleDB QueryFaults.none 8 = .ok [] :=
  ⟨(GetByClient_exact sampleDB 7 (by decide)).1,
   (GetByClient_exact sampleDB 8 (by decide)).2.2.2.1 (by decide)⟩

/-- C3. Evaluation at the failing input: on the empty table the engine answers
`Get(1)` with `sql.ErrNoRows`, `Get` returns an error built from the number alone,
and `errors.Is` does not find `sql.ErrNoRows` in it. -/
theorem Get_missing_hides_ErrNoRows :
    QueryRowScan ⟨[], 0⟩ none 1 = .error ErrNoRows ∧
      Get ⟨[], 0⟩ none 1 = .error (.plain "строка 1 не найдена") ∧
      (GoError.plain "строка 1 не найдена").Unwrap = none ∧
      wraps (errOf (Get ⟨[], 0⟩ none 1)) ErrNoRows = false :=
  ⟨rfl, rfl, rfl, rfl⟩

/-- C9. Evaluation at the failing inputs: when the engine fails the statement with
`sampleErr`, `SetStatus`, `SetAddress`, `GetByClient` (on the query, on a row
scan and on the cursor) and `Get` each return a non-nil error from which
`sampleErr` cannot be recovered by `errors.Is`. -/
theorem errors_not_wrapped :
    (SetStatus sampleDB (some sampleErr) 1 "sent").2
        = some (.plain "ошибка выполнения запроса: database is locked") ∧
      wraps (SetStatus sampleDB (some sampleErr) 1 "sent").2 sampleErr = false ∧
      (SetAddress sampleDB (some sampleErr) 1 "new").2
        = some (.plain "ошибка выполнения запроса: database is locked") ∧
      wraps (SetAddress sampleDB (some sampleErr) 1 "new").2 sampleErr = false ∧
      GetByClient sampleDB ⟨some sampleErr, none, none⟩ 7
        = .error (.plain "ошибка выполнения запроса: database is locked") ∧
      wraps (errOf (GetByClient sampleDB ⟨some sampleErr, none, none⟩ 7)) sampleErr = false ∧
      GetByClient sampleDB ⟨none, some (1, sampleErr), none⟩ 7
        = .error (.plain "ошибка сканирования данных: database is locked") ∧
      wraps (errOf (GetByClient sampleDB ⟨none, some (1, sampleErr), none⟩ 7)) sampleErr
        = false ∧
      GetByClient sampleDB ⟨none, none, some (1, sampleErr)⟩ 7
        = .error (.plain "ошибка чтения строк: database is locked") ∧
      wraps (errOf (GetByClient sampleDB ⟨none, none, some (1, sampleErr)⟩ 7)) sampleErr
        = false ∧
      Get sampleDB (some sampleErr) 1 = .error (.plain "строка 1 не найдена") ∧
      wraps (errOf (Get sampleDB (some sampleErr) 1)) sampleErr = false :=
  ⟨rfl, rfl, rfl, rfl, rfl, rfl, rfl, rfl, rfl, rfl, rfl, rfl⟩

end ParcelStore
